import Mathlib

set_option maxHeartbeats 1000000

/-!
Verification of the recording-sync pipeline of the zoom-backup repository.

The Go sources are embedded shallowly: the pure helpers (FileName,
getFileSaveName and the date parsing/formatting they rely on) become Lean
functions; the HTTP-dependent functions (fetchRecordings,
requestRecordingFile, deleteMeetingRecordings) become functions of the
abstract outcome of their single HTTP round trip; the orchestrator loop of
ZoomBackup becomes a trace-producing function over an environment that fixes
the outcome of every remote interaction.  Go strings are byte arrays; the
embedding identifies them with Lean strings (exact for ASCII data, which is
all the claims exercise).  A Go runtime panic (the out-of-range slice in
getFileSaveName) is modelled explicitly, since it aborts the whole process.
-/

/-- One media asset of a meeting (struct `recordingFile`, identical in
function.go and main.go). -/
structure recordingFile where
  RecordingStart : String
  FileType : String
  DownloadURL : String
  RecordingType : String
  Status : String
  deriving DecidableEq

/-- One raw meeting entry of the catalog response (the anonymous struct inside
`recordingListResponse` in function.go: uuid, topic, start_time,
recording_files). -/
structure rawMeeting where
  ID : String
  Topic : String
  StartTime : String
  RecordingFiles : List recordingFile
  deriving DecidableEq

/-- The parsed catalog response body (`recordingListResponse` in function.go). -/
structure recordingListResponse where
  Meetings : List rawMeeting
  deriving DecidableEq

/-- A filtered meeting (struct `meeting` in function.go). -/
structure meeting where
  ID : String
  Topic : String
  StartTime : String
  Files : List recordingFile
  deriving DecidableEq

/-- Constant `dateLength` of function.go. -/
def dateLength : Nat := 10

/-- Go `strings.ToLower`, restricted to the ASCII case mapping (which is all
the repository's data exercises). -/
def stringsToLower (s : String) : String := String.mk (s.toList.map Char.toLower)

/-- function.go `recordingFile.FileName`:
`fmt.Sprintf("%s-%s.%s", f.RecordingStart, f.RecordingType, strings.ToLower(f.FileType))`. -/
def recordingFile.FileName (f : recordingFile) : String :=
  f.RecordingStart ++ "-" ++ f.RecordingType ++ "." ++ stringsToLower f.FileType

namespace MainGo

/-- main.go `recordingFile.FileName`:
`fmt.Sprintf("%s-%ss.%s", f.RecordingStart, f.RecordingType, strings.ToLower(f.FileType))`.
Note the literal `s` between the second verb and the dot in the format string. -/
def FileName (f : recordingFile) : String :=
  f.RecordingStart ++ "-" ++ f.RecordingType ++ "s." ++ stringsToLower f.FileType

end MainGo

/-- Leap-year rule of Go's time package (`isLeap`). -/
def isLeapYear (y : Nat) : Bool :=
  y % 4 == 0 && (y % 100 != 0 || y % 400 == 0)

/-- Number of days of month `m` in year `y`, as Go's `time.daysIn`. -/
def daysIn (y m : Nat) : Nat :=
  if m == 2 then (if isLeapYear y then 29 else 28)
  else if m == 4 || m == 6 || m == 9 || m == 11 then 30
  else 31

/-- Numeric value of a decimal digit character. -/
def digitVal (c : Char) : Nat := c.toNat - 48

/-- Go `time.Parse(dateFormatFrom, s)` with layout `"2006-01-02"`: succeeds
exactly on ten-character strings `YYYY-MM-DD` with a four-digit year, a
two-digit month in 01..12, and a two-digit day within the month's length
(leap years included); any surplus or malformed input is an error. -/
def parseYMD (s : String) : Option (Nat × Nat × Nat) :=
  match s.toList with
  | [y1, y2, y3, y4, h1, mo1, mo2, h2, d1, d2] =>
    if y1.isDigit && y2.isDigit && y3.isDigit && y4.isDigit && h1 == '-' &&
       mo1.isDigit && mo2.isDigit && h2 == '-' && d1.isDigit && d2.isDigit then
      let y := ((digitVal y1 * 10 + digitVal y2) * 10 + digitVal y3) * 10 + digitVal y4
      let m := digitVal mo1 * 10 + digitVal mo2
      let d := digitVal d1 * 10 + digitVal d2
      if 1 ≤ m && m ≤ 12 && 1 ≤ d && d ≤ daysIn y m then some (y, m, d) else none
    else none
  | _ => none

/-- Two-digit zero-padded decimal, as Go's Format pads months and days. -/
def pad2 (n : Nat) : String := if n < 10 then "0" ++ toString n else toString n

/-- Four-digit zero-padded decimal, as Go's Format renders years. -/
def pad4 (n : Nat) : String :=
  if n < 10 then "000" ++ toString n
  else if n < 100 then "00" ++ toString n
  else if n < 1000 then "0" ++ toString n
  else toString n

/-- Go `Format(dateFormatTo)` with layout `"01-02-2006"`: MM-DD-YYYY. -/
def formatMDY (y m d : Nat) : String :=
  pad2 m ++ "-" ++ pad2 d ++ "-" ++ pad4 y

/-- Result of a Go function that may return a value, return an error, or crash
with a runtime panic (the out-of-range slice in getFileSaveName). -/
inductive GoResult (α : Type) where
  | ok (val : α)
  | err (msg : String)
  | crash
  deriving DecidableEq

/-- Whether a `GoResult` is the error return (the FormatError branch). -/
def GoResult.isFormatError {α : Type} : GoResult α → Bool
  | .err _ => true
  | _ => false

/-- Whether a `GoResult` carries a value. -/
def GoResult.isOk {α : Type} : GoResult α → Bool
  | .ok _ => true
  | _ => false

/-- function.go `getFileSaveName`.  The slice `startTime[:dateLength]` panics
when the string is shorter than ten bytes, modelled by `GoResult.crash`;
otherwise the ten-character prefix is parsed as a date (FormatError on
failure), reformatted MM-DD-YYYY, prefixed with `Topic ++ "-"` when the topic
is non-empty, and joined with the file name by `/`. -/
def getFileSaveName (startTime Topic recordingFileName : String) : GoResult String :=
  if startTime.length < dateLength then GoResult.crash
  else
    match parseYMD (startTime.take dateLength) with
    | none => GoResult.err "failed to parse date"
    | some (y, m, d) =>
      GoResult.ok ((if Topic == "" then "" else Topic ++ "-") ++
        formatMDY y m d ++ "/" ++ recordingFileName)

/-- Outcome of `defaultHTTPClient.Do`: a transport error, or a response with a
status code and a body. -/
inductive HttpResult (α : Type) where
  | transportError
  | ok (statusCode : Nat) (body : α)
  deriving DecidableEq

/-- Catalog response body as function.go consumes it: reading it can fail
(`buf.ReadFrom`), otherwise the bytes either fail `json.Unmarshal` or parse
into a `recordingListResponse`. -/
inductive Body where
  | readError
  | invalid
  | parsed (response : recordingListResponse)
  deriving DecidableEq

/-- Delete response body: reading it can fail, otherwise it is some content
string (only used inside the error message). -/
inductive DeleteBody where
  | readError
  | content (s : String)
  deriving DecidableEq

/-- The per-meeting conversion inside fetchRecordings (function.go lines
213-226): copy ID, Topic and StartTime, and keep exactly the files with
Status "completed" and FileType "MP4", in their original order. -/
def convertMeeting (raw : rawMeeting) : meeting :=
  { ID := raw.ID, Topic := raw.Topic, StartTime := raw.StartTime,
    Files := raw.RecordingFiles.filter
      (fun file => file.Status == "completed" && file.FileType == "MP4") }

/-- function.go `fetchRecordings` as a function of its HTTP outcome: transport
error, body read error, a status code with `statusCode/200 ≠ 1`, and
unmarshal failure each return an error; otherwise the filtered meetings. -/
def fetchRecordings (resp : HttpResult Body) : Except String (List meeting) :=
  match resp with
  | .transportError => Except.error "failed to perform request for recordings"
  | .ok _ Body.readError => Except.error "failed to read recordings response body"
  | .ok statusCode Body.invalid =>
    if statusCode / 200 ≠ 1 then Except.error "invalid recordings response code"
    else Except.error "failed to unmarshal recordings response"
  | .ok statusCode (Body.parsed response) =>
    if statusCode / 200 ≠ 1 then Except.error "invalid recordings response code"
    else Except.ok (response.Meetings.map convertMeeting)

/-- function.go `requestRecordingFile` as a function of its HTTP outcome; the
returned body stream is abstract (`Unit`). -/
def requestRecordingFile (resp : HttpResult Unit) : Except String Unit :=
  match resp with
  | .transportError => Except.error "failed to perform request to download recording"
  | .ok statusCode _ =>
    if statusCode / 200 ≠ 1 then Except.error "invalid recording download response code"
    else Except.ok ()

/-- function.go `deleteMeetingRecordings` as a function of its HTTP outcome;
`http.StatusNoContent` is 204. -/
def deleteMeetingRecordings (resp : HttpResult DeleteBody) : Except String Unit :=
  match resp with
  | .transportError => Except.error "failed to delete recordings"
  | .ok statusCode body =>
    if statusCode ≠ 204 then
      match body with
      | DeleteBody.readError => Except.error "failed to read delete recordings response body"
      | DeleteBody.content s => Except.error ("invalid delete recordings response code: " ++ s)
    else Except.ok ()

/-- The environment of one ZoomBackup invocation: the HTTP outcome of each
download URL, whether `io.Copy` succeeds for a given file, and the HTTP
outcome of each meeting's delete request. -/
structure Env where
  download : String → HttpResult Unit
  copyOk : recordingFile → Bool
  delete : String → HttpResult DeleteBody

/-- Observable remote side effects of the orchestrator loop in ZoomBackup. -/
inductive Event where
  | downloadRequest (url : String)
  | writerOpen (key : String)
  | copyAttempt (key : String)
  | commit (key : String)
  | deleteRequest (meetingID : String)
  deriving DecidableEq

/-- The body of ZoomBackup's inner loop (function.go lines 99-134) for one
file: the event trace it emits, paired with whether it panicked (the
getFileSaveName slice panic, which aborts the whole program).  The `commit`
event is the `sw.Close()` call, reached exactly when `io.Copy` succeeded; a
failed download request or a key-derivation error make the loop continue
after the lone download request. -/
def processFile (env : Env) (m : meeting) (f : recordingFile) : List Event × Bool :=
  match requestRecordingFile (env.download f.DownloadURL) with
  | .error _ => ([Event.downloadRequest f.DownloadURL], false)
  | .ok _ =>
    match getFileSaveName m.StartTime m.Topic f.FileName with
    | .crash => ([Event.downloadRequest f.DownloadURL], true)
    | .err _ => ([Event.downloadRequest f.DownloadURL], false)
    | .ok key =>
      if env.copyOk f then
        ([Event.downloadRequest f.DownloadURL, Event.writerOpen key,
          Event.copyAttempt key, Event.commit key], false)
      else
        ([Event.downloadRequest f.DownloadURL, Event.writerOpen key,
          Event.copyAttempt key], false)

/-- The inner loop of ZoomBackup over a meeting's eligible files, stopping at
a panic. -/
def processFiles (env : Env) (m : meeting) : List recordingFile → List Event × Bool
  | [] => ([], false)
  | f :: fs =>
    let r := processFile env m f
    if r.2 then r
    else
      let rest := processFiles env m fs
      (r.1 ++ rest.1, rest.2)

/-- One iteration of ZoomBackup's outer loop (function.go lines 98-141): all
files of the meeting, then the deletion request, whose own error is only
logged. -/
def processMeeting (env : Env) (m : meeting) : List Event × Bool :=
  let r := processFiles env m m.Files
  if r.2 then r
  else (r.1 ++ [Event.deleteRequest m.ID], false)

/-- ZoomBackup's outer loop over all fetched meetings, stopping at a panic. -/
def runMeetings (env : Env) : List meeting → List Event × Bool
  | [] => ([], false)
  | m :: ms =>
    let r := processMeeting env m
    if r.2 then r
    else
      let rest := runMeetings env ms
      (r.1 ++ rest.1, rest.2)

/-- The whole ZoomBackup run as a function of the catalog fetch outcome: a
fetch error is `log.Fatal` (function.go lines 92-96), so the run ends with no
remote side effects; otherwise the meeting loop runs. -/
def zoomBackupRun (env : Env) (resp : HttpResult Body) : List Event × Bool :=
  match fetchRecordings resp with
  | .error _ => ([], false)
  | .ok ms => runMeetings env ms

/-- The README's example recording file. -/
def exFile : recordingFile :=
  { RecordingStart := "2020-09-14T15:02:39Z", FileType := "MP4", DownloadURL := "u1",
    RecordingType := "shared_screen_with_gallery_views", Status := "completed" }

/-- An environment in which every remote interaction fails. -/
def exEnv : Env :=
  { download := fun _ => HttpResult.transportError,
    copyOk := fun _ => false,
    delete := fun _ => HttpResult.transportError }

theorem getFileSaveName_crash_iff (s t n : String) :
    getFileSaveName s t n = GoResult.crash ↔ s.length < dateLength := by
  unfold getFileSaveName
  by_cases h : s.length < dateLength
  · simp [h]
  · simp only [h, if_false]
    split <;> simp [h]

theorem processFile_shape (env : Env) (m : meeting) (f : recordingFile) :
    processFile env m f = ([Event.downloadRequest f.DownloadURL], false) ∨
    (processFile env m f = ([Event.downloadRequest f.DownloadURL], true) ∧
      getFileSaveName m.StartTime m.Topic f.FileName = GoResult.crash) ∨
    ∃ key, getFileSaveName m.StartTime m.Topic f.FileName = GoResult.ok key ∧
      ((env.copyOk f = false ∧
         processFile env m f =
           ([Event.downloadRequest f.DownloadURL, Event.writerOpen key,
             Event.copyAttempt key], false)) ∨
       (env.copyOk f = true ∧
         processFile env m f =
           ([Event.downloadRequest f.DownloadURL, Event.writerOpen key,
             Event.copyAttempt key, Event.commit key], false))) := by
  cases hreq : requestRecordingFile (env.download f.DownloadURL) with
  | error msg => exact Or.inl (by simp [processFile, hreq])
  | ok u =>
    cases hk : getFileSaveName m.StartTime m.Topic f.FileName with
    | crash => exact Or.inr (Or.inl ⟨by simp [processFile, hreq, hk], rfl⟩)
    | err msg => exact Or.inl (by simp [processFile, hreq, hk])
    | ok key =>
      cases hc : env.copyOk f with
      | false =>
        exact Or.inr (Or.inr ⟨key, rfl, Or.inl ⟨rfl, by simp [processFile, hreq, hk, hc]⟩⟩)
      | true =>
        exact Or.inr (Or.inr ⟨key, rfl, Or.inr ⟨rfl, by simp [processFile, hreq, hk, hc]⟩⟩)

theorem processFile_panic_length (env : Env) (m : meeting) (f : recordingFile)
    (h : (processFile env m f).2 = true) : m.StartTime.length < dateLength := by
  rcases processFile_shape env m f with hs | ⟨hs, hk⟩ | ⟨key, hk, ⟨hc, hs⟩ | ⟨hc, hs⟩⟩
  · rw [hs] at h; cases h
  · exact (getFileSaveName_crash_iff _ _ _).mp hk
  · rw [hs] at h; cases h
  · rw [hs] at h; cases h

theorem processFile_no_panic (env : Env) (m : meeting) (f : recordingFile)
    (h : dateLength ≤ m.StartTime.length) : (processFile env m f).2 = false := by
  cases hp : (processFile env m f).2 with
  | false => rfl
  | true => exact absurd (processFile_panic_length env m f hp) (by omega)

theorem processFile_head (env : Env) (m : meeting) (f : recordingFile) :
    Event.downloadRequest f.DownloadURL ∈ (processFile env m f).1 := by
  rcases processFile_shape env m f with hs | ⟨hs, _⟩ | ⟨key, _, ⟨_, hs⟩ | ⟨_, hs⟩⟩ <;>
    simp [hs]

theorem processFile_download_eq (env : Env) (m : meeting) (f : recordingFile) (u : String)
    (h : Event.downloadRequest u ∈ (processFile env m f).1) : u = f.DownloadURL := by
  rcases processFile_shape env m f with hs | ⟨hs, _⟩ | ⟨key, _, ⟨_, hs⟩ | ⟨_, hs⟩⟩ <;>
    · rw [hs] at h; simp at h; tauto

theorem processFile_no_delete (env : Env) (m : meeting) (f : recordingFile) (i : String) :
    Event.deleteRequest i ∉ (processFile env m f).1 := by
  rcases processFile_shape env m f with hs | ⟨hs, _⟩ | ⟨key, _, ⟨_, hs⟩ | ⟨_, hs⟩⟩ <;>
    simp [hs]

theorem processFile_commit (env : Env) (m : meeting) (f : recordingFile) (key : String)
    (h : Event.commit key ∈ (processFile env m f).1) :
    env.copyOk f = true ∧
    (processFile env m f).1 =
      [Event.downloadRequest f.DownloadURL, Event.writerOpen key,
       Event.copyAttempt key, Event.commit key] := by
  rcases processFile_shape env m f with hs | ⟨hs, _⟩ | ⟨k, _, ⟨_, hs⟩ | ⟨hc, hs⟩⟩
  · rw [hs] at h; simp at h
  · rw [hs] at h; simp at h
  · rw [hs] at h; simp at h
  · rw [hs] at h ⊢
    simp at h
    subst h
    exact ⟨hc, rfl⟩

theorem processFiles_no_panic (env : Env) (m : meeting)
    (h : dateLength ≤ m.StartTime.length) :
    ∀ fs : List recordingFile, (processFiles env m fs).2 = false := by
  intro fs
  induction fs with
  | nil => rfl
  | cons f fs ih =>
    simp only [processFiles, processFile_no_panic env m f h, if_false, Bool.false_eq_true]
    exact ih

theorem processFiles_no_delete (env : Env) (m : meeting) (i : String) :
    ∀ fs : List recordingFile, Event.deleteRequest i ∉ (processFiles env m fs).1 := by
  intro fs
  induction fs with
  | nil => simp [processFiles]
  | cons f fs ih =>
    cases hp : (processFile env m f).2 with
    | true =>
      simp only [processFiles, hp, if_true]
      exact processFile_no_delete env m f i
    | false =>
      simp only [processFiles, hp, Bool.false_eq_true, if_false, List.mem_append]
      rintro (hmem | hmem)
      · exact processFile_no_delete env m f i hmem
      · exact ih hmem

theorem processFiles_download_mem (env : Env) (m : meeting)
    (h : dateLength ≤ m.StartTime.length) :
    ∀ fs : List recordingFile, ∀ f ∈ fs,
      Event.downloadRequest f.DownloadURL ∈ (processFiles env m fs).1 := by
  intro fs
  induction fs with
  | nil => intro f hf; cases hf
  | cons g fs ih =>
    intro f hf
    simp only [processFiles, processFile_no_panic env m g h, Bool.false_eq_true, if_false,
      List.mem_append]
    rcases List.mem_cons.mp hf with rfl | hf
    · exact Or.inl (processFile_head env m f)
    · exact Or.inr (ih f hf)

theorem processFiles_download_src (env : Env) (m : meeting) (u : String) :
    ∀ fs : List recordingFile,
      Event.downloadRequest u ∈ (processFiles env m fs).1 →
      ∃ f, f ∈ fs ∧ u = f.DownloadURL := by
  intro fs
  induction fs with
  | nil => intro h; simp [processFiles] at h
  | cons g fs ih =>
    intro h
    cases hp : (processFile env m g).2 with
    | true =>
      rw [processFiles, if_pos (by rw [hp])] at h
      exact ⟨g, List.mem_cons_self g fs, processFile_download_eq env m g u h⟩
    | false =>
      rw [processFiles, if_neg (by rw [hp]; exact Bool.false_ne_true)] at h
      rcases List.mem_append.mp h with hmem | hmem
      · exact ⟨g, List.mem_cons_self g fs, processFile_download_eq env m g u hmem⟩
      · rcases ih hmem with ⟨f, hf, hu⟩
        exact ⟨f, List.mem_cons_of_mem g hf, hu⟩

theorem processMeeting_eq (env : Env) (m : meeting)
    (h : dateLength ≤ m.StartTime.length) :
    processMeeting env m =
      ((processFiles env m m.Files).1 ++ [Event.deleteRequest m.ID], false) := by
  simp only [processMeeting, processFiles_no_panic env m h, Bool.false_eq_true, if_false]

theorem runMeetings_delete_mem (env : Env) :
    ∀ ms : List meeting, (∀ m2 ∈ ms, dateLength ≤ m2.StartTime.length) →
      ∀ m2 ∈ ms, Event.deleteRequest m2.ID ∈ (runMeetings env ms).1 := by
  intro ms
  induction ms with
  | nil => intro _ m2 hm; cases hm
  | cons m ms ih =>
    intro hall m2 hm
    have hm0 : dateLength ≤ m.StartTime.length := hall m (List.mem_cons_self m ms)
    have hpm := processMeeting_eq env m hm0
    rw [runMeetings, if_neg (by rw [hpm]; exact Bool.false_ne_true)]
    simp only [List.mem_append]
    rcases List.mem_cons.mp hm with rfl | hm
    · exact Or.inl (by rw [hpm]; exact List.mem_append_right _ (List.mem_singleton.mpr rfl))
    · exact Or.inr (ih (fun x hx => hall x (List.mem_cons_of_mem m hx)) m2 hm)

/-- C1: a recording file is retained in the meeting's eligible file set iff its
status is "completed" and its file_type is "MP4"; moreover every download
request the orchestrator issues while processing the filtered meeting targets
the URL of such an eligible file, so dropped files are never transferred. -/
theorem C1_eligibility_filter (raw : rawMeeting) (f : recordingFile) :
    (f ∈ (convertMeeting raw).Files ↔
      f ∈ raw.RecordingFiles ∧ f.Status = "completed" ∧ f.FileType = "MP4") ∧
    (∀ (env : Env) (u : String),
      Event.downloadRequest u ∈ (processMeeting env (convertMeeting raw)).1 →
      ∃ g, g ∈ raw.RecordingFiles ∧ g.Status = "completed" ∧ g.FileType = "MP4" ∧
        g.DownloadURL = u) := by
  have hiff : ∀ g : recordingFile, g ∈ (convertMeeting raw).Files ↔
      g ∈ raw.RecordingFiles ∧ g.Status = "completed" ∧ g.FileType = "MP4" := by
    intro g
    simp [convertMeeting, List.mem_filter, Bool.and_eq_true, beq_iff_eq, and_assoc]
  refine ⟨hiff f, ?_⟩
  intro env u hmem
  have hfiles : Event.downloadRequest u ∈
      (processFiles env (convertMeeting raw) (convertMeeting raw).Files).1 := by
    simp only [processMeeting] at hmem
    by_cases hp : (processFiles env (convertMeeting raw) (convertMeeting raw).Files).2 = true
    · rwa [if_pos hp] at hmem
    · rw [if_neg hp] at hmem
      rcases List.mem_append.mp hmem with h1 | h1
      · exact h1
      · simp at h1
  rcases processFiles_download_src env (convertMeeting raw) u _ hfiles with ⟨g, hg, hu⟩
  rcases (hiff g).mp hg with ⟨hg1, hg2, hg3⟩
  exact ⟨g, hg1, hg2, hg3, hu.symm⟩

/-- A raw catalog entry with one eligible and one ineligible file. -/
def rawC1 : rawMeeting := ⟨"m1", "", "2020-09-14T15:02:39Z",
  [exFile, ⟨"2020-09-14T15:02:39Z", "CHAT", "u9", "chat_file", "completed"⟩]⟩

/-- Witness for C1 at a concrete catalog entry. -/
theorem C1_eligibility_filter_witness :
    exFile ∈ (convertMeeting rawC1).Files :=
  (C1_eligibility_filter rawC1 exFile).1.mpr (by decide)

/-- C2: for a start_time with a valid YYYY-MM-DD prefix, the derived key is
the MM-DD-YYYY folder (topic-prefixed exactly when the topic is non-empty)
joined by "/" to "recording_start-recording_type.lowercased file_type"; at the
spec's concrete inputs the keys are the stated strings. -/
theorem C2_key_derivation :
    (∀ (st topic : String) (f : recordingFile) (y m d : Nat),
      dateLength ≤ st.length →
      parseYMD (st.take dateLength) = some (y, m, d) →
      getFileSaveName st topic f.FileName =
        GoResult.ok ((if topic = "" then "" else topic ++ "-") ++ formatMDY y m d ++ "/" ++
          (f.RecordingStart ++ "-" ++ f.RecordingType ++ "." ++ stringsToLower f.FileType))) ∧
    getFileSaveName "2020-09-14T15:02:39Z" "" exFile.FileName =
      GoResult.ok "09-14-2020/2020-09-14T15:02:39Z-shared_screen_with_gallery_views.mp4" ∧
    getFileSaveName "2020-09-14T15:02:39Z" "Standup" exFile.FileName =
      GoResult.ok "Standup-09-14-2020/2020-09-14T15:02:39Z-shared_screen_with_gallery_views.mp4" := by
  refine ⟨?_, by decide, by decide⟩
  intro st topic f y m d hlen hparse
  rw [getFileSaveName, if_neg (by omega), hparse]
  by_cases ht : topic = ""
  · simp [ht, recordingFile.FileName]
  · simp [ht, recordingFile.FileName]

/-- Witness for C2's general clause at the spec's concrete input. -/
theorem C2_key_derivation_witness :
    dateLength ≤ ("2020-09-14T15:02:39Z").length ∧
    parseYMD (("2020-09-14T15:02:39Z").take dateLength) = some (2020, 9, 14) ∧
    getFileSaveName "2020-09-14T15:02:39Z" "Standup" exFile.FileName =
      GoResult.ok ((if ("Standup" : String) = "" then "" else "Standup" ++ "-") ++
        formatMDY 2020 9 14 ++ "/" ++
        (exFile.RecordingStart ++ "-" ++ exFile.RecordingType ++ "." ++
          stringsToLower exFile.FileType)) :=
  ⟨by decide, by decide,
   C2_key_derivation.1 "2020-09-14T15:02:39Z" "Standup" exFile 2020 9 14 (by decide) (by decide)⟩

/-- C3 is false as stated: a 301 catalog response status is not in the 2xx
range, yet the fetch succeeds (the code tests statusCode/200 == 1, accepting
200-399) and the run proceeds to issue a deletion request. -/
theorem C3_counterexample :
    ¬(200 ≤ 301 ∧ 301 < 300) ∧
    fetchRecordings (HttpResult.ok 301 (Body.parsed ⟨[⟨"m1", "", "2020-09-14T15:02:39Z", []⟩]⟩)) =
      Except.ok [⟨"m1", "", "2020-09-14T15:02:39Z", []⟩] ∧
    (zoomBackupRun exEnv
        (HttpResult.ok 301 (Body.parsed ⟨[⟨"m1", "", "2020-09-14T15:02:39Z", []⟩]⟩))).1 =
      [Event.deleteRequest "m1"] :=
  ⟨by omega, rfl, rfl⟩

/-- C3 (amended): for every catalog fetch whose transport fails, whose body
fails to read or to parse, or whose status s has s/200 ≠ 1 (outside 200-399;
the code checks integer division by 200, not the 2xx range), the fetch returns
an error and the run aborts with no download and no deletion requests. -/
theorem C3_catalog_failure_aborts (env : Env) (resp : HttpResult Body)
    (h : resp = HttpResult.transportError ∨
         ∃ s b, resp = HttpResult.ok s b ∧
           (s / 200 ≠ 1 ∨ b = Body.readError ∨ b = Body.invalid)) :
    (∃ msg, fetchRecordings resp = Except.error msg) ∧
    zoomBackupRun env resp = ([], false) := by
  have herr : ∃ msg, fetchRecordings resp = Except.error msg := by
    rcases h with rfl | ⟨s, b, rfl, hcond⟩
    · exact ⟨_, rfl⟩
    · cases b with
      | readError => exact ⟨_, rfl⟩
      | invalid =>
        by_cases hs : s / 200 = 1
        · exact ⟨"failed to unmarshal recordings response", by simp [fetchRecordings, hs]⟩
        · exact ⟨"invalid recordings response code", by simp [fetchRecordings, hs]⟩
      | parsed r =>
        rcases hcond with hs | hb | hb
        · exact ⟨"invalid recordings response code", by simp [fetchRecordings, hs]⟩
        · cases hb
        · cases hb
  rcases herr with ⟨msg, hmsg⟩
  exact ⟨⟨msg, hmsg⟩, by simp [zoomBackupRun, hmsg]⟩

/-- Witness for C3 at a concrete 500 response. -/
theorem C3_catalog_failure_aborts_witness :
    (HttpResult.ok 500 (Body.parsed ⟨[]⟩) = HttpResult.transportError ∨
      ∃ s b, HttpResult.ok 500 (Body.parsed ⟨[]⟩) = HttpResult.ok s b ∧
        (s / 200 ≠ 1 ∨ b = Body.readError ∨ b = Body.invalid)) ∧
    ((∃ msg, fetchRecordings (HttpResult.ok 500 (Body.parsed ⟨[]⟩)) = Except.error msg) ∧
      zoomBackupRun exEnv (HttpResult.ok 500 (Body.parsed ⟨[]⟩)) = ([], false)) :=
  ⟨Or.inr ⟨500, Body.parsed ⟨[]⟩, rfl, Or.inl (by omega)⟩,
   C3_catalog_failure_aborts exEnv _ (Or.inr ⟨500, Body.parsed ⟨[]⟩, rfl, Or.inl (by omega)⟩)⟩

/-- C4 is false as stated: a 301 download status is not in the 2xx range, yet
the download does not fail — requestRecordingFile returns the body. -/
theorem C4_counterexample :
    ¬(200 ≤ 301 ∧ 301 < 300) ∧ requestRecordingFile (HttpResult.ok 301 ()) = Except.ok () :=
  ⟨by omega, rfl⟩

/-- C4 (amended): for a meeting whose start_time has at least ten characters
(so key derivation cannot panic) and a file whose download response status s
has s/200 ≠ 1 (outside 200-399), the download fails for that file only: its
processing ends after the lone download request, every sibling file still
gets its download requested, and the meeting's deletion request is still
issued. -/
theorem C4_download_failure_isolated (env : Env) (m : meeting) (f : recordingFile) (s : Nat)
    (hlen : dateLength ≤ m.StartTime.length) (hf : f ∈ m.Files)
    (hdl : env.download f.DownloadURL = HttpResult.ok s ()) (hs : s / 200 ≠ 1) :
    (∃ msg, requestRecordingFile (env.download f.DownloadURL) = Except.error msg) ∧
    (processFile env m f).1 = [Event.downloadRequest f.DownloadURL] ∧
    (∀ g ∈ m.Files, Event.downloadRequest g.DownloadURL ∈ (processMeeting env m).1) ∧
    Event.deleteRequest m.ID ∈ (processMeeting env m).1 := by
  have hreq : requestRecordingFile (env.download f.DownloadURL) =
      Except.error "invalid recording download response code" := by
    rw [hdl]; simp [requestRecordingFile, hs]
  refine ⟨⟨_, hreq⟩, ?_, ?_, ?_⟩
  · simp [processFile, hreq]
  · intro g hg
    rw [processMeeting_eq env m hlen]
    exact List.mem_append_left _ (processFiles_download_mem env m hlen m.Files g hg)
  · rw [processMeeting_eq env m hlen]
    exact List.mem_append_right _ (List.mem_singleton.mpr rfl)

/-- A second eligible file of the same meeting. -/
def fEx2 : recordingFile := ⟨"2020-09-14T15:05:00Z", "MP4", "u2", "speaker_view", "completed"⟩

/-- A meeting with two eligible files. -/
def mEx4 : meeting := ⟨"m1", "", "2020-09-14T15:02:39Z", [exFile, fEx2]⟩

/-- An environment in which the first file's download gets a 404 and all other
interactions succeed. -/
def envEx4 : Env :=
  { download := fun u => if u == "u1" then HttpResult.ok 404 () else HttpResult.ok 200 (),
    copyOk := fun _ => true,
    delete := fun _ => HttpResult.ok 204 (DeleteBody.content "") }

/-- Witness for C4: a 404 on the first file leaves the sibling and the
deletion untouched. -/
theorem C4_download_failure_isolated_witness :
    (dateLength ≤ mEx4.StartTime.length ∧ exFile ∈ mEx4.Files ∧
      envEx4.download exFile.DownloadURL = HttpResult.ok 404 () ∧ 404 / 200 ≠ 1) ∧
    ((∃ msg, requestRecordingFile (envEx4.download exFile.DownloadURL) = Except.error msg) ∧
      (processFile envEx4 mEx4 exFile).1 = [Event.downloadRequest exFile.DownloadURL] ∧
      (∀ g ∈ mEx4.Files, Event.downloadRequest g.DownloadURL ∈ (processMeeting envEx4 mEx4).1) ∧
      Event.deleteRequest mEx4.ID ∈ (processMeeting envEx4 mEx4).1) :=
  ⟨⟨by decide, by decide, by decide, by decide⟩,
   C4_download_failure_isolated envEx4 mEx4 exFile 404 (by decide) (by decide) (by decide)
     (by decide)⟩

/-- A meeting whose start_time is shorter than ten bytes. -/
def crashMeeting : meeting := ⟨"m1", "", "x", [exFile]⟩

/-- An environment in which every remote interaction succeeds. -/
def envOk : Env :=
  { download := fun _ => HttpResult.ok 200 (),
    copyOk := fun _ => true,
    delete := fun _ => HttpResult.ok 204 (DeleteBody.content "") }

/-- C5 is false as stated: a meeting whose start_time is shorter than ten
bytes panics during key derivation right after a successful download, so its
deletion request is never issued (zero calls, not exactly one). -/
theorem C5_counterexample :
    Event.deleteRequest crashMeeting.ID ∉ (processMeeting envOk crashMeeting).1 ∧
    (processMeeting envOk crashMeeting).1 = [Event.downloadRequest "u1"] :=
  ⟨by decide, by decide⟩

/-- C5 (amended): for every meeting whose start_time has at least ten
characters, the deletion request is issued exactly once, strictly after a
transfer was attempted for every eligible file; deleteMeetingRecordings
succeeds iff the response status is 204; and a delete failure never prevents
the deletion requests of the other meetings (all assumed panic-free). -/
theorem C5_delete_once_after_files (env : Env) (m : meeting)
    (hlen : dateLength ≤ m.StartTime.length) :
    (∃ pre, (processMeeting env m).1 = pre ++ [Event.deleteRequest m.ID] ∧
      Event.deleteRequest m.ID ∉ pre ∧
      ∀ f ∈ m.Files, Event.downloadRequest f.DownloadURL ∈ pre) ∧
    (∀ resp : HttpResult DeleteBody,
      deleteMeetingRecordings resp = Except.ok () ↔ ∃ b, resp = HttpResult.ok 204 b) ∧
    (∀ ms : List meeting, (∀ m2 ∈ ms, dateLength ≤ m2.StartTime.length) →
      ∀ m2 ∈ ms, Event.deleteRequest m2.ID ∈ (runMeetings env ms).1) := by
  refine ⟨?_, ?_, runMeetings_delete_mem env⟩
  · refine ⟨(processFiles env m m.Files).1, ?_,
      processFiles_no_delete env m m.ID m.Files,
      processFiles_download_mem env m hlen m.Files⟩
    rw [processMeeting_eq env m hlen]
  · intro resp
    constructor
    · intro hok
      cases resp with
      | transportError => exact absurd hok (by simp [deleteMeetingRecordings])
      | ok s b =>
        by_cases hs : s = 204
        · exact ⟨b, by rw [hs]⟩
        · cases b <;> simp [deleteMeetingRecordings, hs] at hok
    · rintro ⟨b, rfl⟩
      simp [deleteMeetingRecordings]

/-- Witness for C5 at a concrete meeting with two eligible files. -/
theorem C5_delete_once_after_files_witness :
    dateLength ≤ mEx4.StartTime.length ∧
    (∃ pre, (processMeeting envEx4 mEx4).1 = pre ++ [Event.deleteRequest mEx4.ID] ∧
      Event.deleteRequest mEx4.ID ∉ pre ∧
      ∀ f ∈ mEx4.Files, Event.downloadRequest f.DownloadURL ∈ pre) :=
  ⟨by decide, (C5_delete_once_after_files envEx4 mEx4 (by decide)).1⟩

/-- C6: the storage writer is closed (the object committed) only when io.Copy
succeeded: if the copy fails the commit event never occurs for that file, and
whenever a commit occurs the file's trace ends copy-then-commit with the
copy flag true. -/
theorem C6_commit_only_after_copy (env : Env) (m : meeting) (f : recordingFile) (key : String) :
    (env.copyOk f = false → Event.commit key ∉ (processFile env m f).1) ∧
    (Event.commit key ∈ (processFile env m f).1 →
      env.copyOk f = true ∧
      ∃ pre, (processFile env m f).1 = pre ++ [Event.copyAttempt key, Event.commit key]) := by
  constructor
  · intro hc hmem
    have hcommit := (processFile_commit env m f key hmem).1
    rw [hc] at hcommit
    cases hcommit
  · intro hmem
    rcases processFile_commit env m f key hmem with ⟨hc, htr⟩
    exact ⟨hc, ⟨[Event.downloadRequest f.DownloadURL, Event.writerOpen key], by rw [htr]; rfl⟩⟩

/-- Witness for C6: with the copy failing, no commit event occurs. -/
theorem C6_commit_only_after_copy_witness :
    exEnv.copyOk exFile = false ∧ Event.commit "k" ∉ (processFile exEnv mEx4 exFile).1 :=
  ⟨rfl, (C6_commit_only_after_copy exEnv mEx4 exFile "k").1 rfl⟩

/-- C7: a raw meeting all of whose files are ineligible is still converted
(with an empty file list) and still returned by a successful catalog fetch,
and processing a meeting with no eligible files emits no transfer event and
exactly the one deletion request. -/
theorem C7_zero_eligible_files (raw : rawMeeting) (env : Env) (m : meeting)
    (hraw : ∀ f ∈ raw.RecordingFiles, ¬(f.Status = "completed" ∧ f.FileType = "MP4")) :
    (convertMeeting raw).Files = [] ∧
    (∀ (s : Nat) (r : recordingListResponse), s / 200 = 1 → raw ∈ r.Meetings →
      ∃ out, fetchRecordings (HttpResult.ok s (Body.parsed r)) = Except.ok out ∧
        convertMeeting raw ∈ out) ∧
    (m.Files = [] → processMeeting env m = ([Event.deleteRequest m.ID], false)) := by
  refine ⟨?_, ?_, ?_⟩
  · simp only [convertMeeting]
    rw [List.filter_eq_nil_iff]
    intro f hf
    have hnf := hraw f hf
    simp only [Bool.and_eq_true, beq_iff_eq]
    tauto
  · intro s r hs hmem
    refine ⟨r.Meetings.map convertMeeting, ?_, List.mem_map_of_mem _ hmem⟩
    simp [fetchRecordings, hs]
  · intro h0
    simp [processMeeting, h0, processFiles]

/-- A raw catalog entry whose only file is not completed. -/
def raw7 : rawMeeting := ⟨"m2", "", "2020-09-14T15:02:39Z",
  [⟨"2020-09-14T15:02:39Z", "MP4", "u3", "speaker_view", "processing"⟩]⟩

/-- Witness for C7 at a concrete meeting with zero eligible files. -/
theorem C7_zero_eligible_files_witness :
    (∀ f ∈ raw7.RecordingFiles, ¬(f.Status = "completed" ∧ f.FileType = "MP4")) ∧
    (convertMeeting raw7).Files = [] ∧
    processMeeting exEnv (convertMeeting raw7) = ([Event.deleteRequest "m2"], false) :=
  ⟨by decide,
   (C7_zero_eligible_files raw7 exEnv (convertMeeting raw7) (by decide)).1,
   (C7_zero_eligible_files raw7 exEnv (convertMeeting raw7) (by decide)).2.2
     ((C7_zero_eligible_files raw7 exEnv (convertMeeting raw7) (by decide)).1)⟩

/-- C8 is false as stated: start_time "x" does not begin with a valid
YYYY-MM-DD date, yet key derivation neither returns a FormatError nor a key —
the ten-byte slice panics. -/
theorem C8_counterexample :
    parseYMD (("x").take dateLength) = none ∧
    (getFileSaveName "x" "" "a.mp4").isFormatError = false ∧
    (getFileSaveName "x" "" "a.mp4").isOk = false ∧
    getFileSaveName "x" "" "a.mp4" = GoResult.crash := by decide

/-- C8 (amended): for every start_time of at least ten characters whose
ten-character prefix is not a valid YYYY-MM-DD date, key derivation fails with
the FormatError and produces no key. -/
theorem C8_format_error (st topic fn : String)
    (hlen : dateLength ≤ st.length) (hbad : parseYMD (st.take dateLength) = none) :
    getFileSaveName st topic fn = GoResult.err "failed to parse date" ∧
    (getFileSaveName st topic fn).isOk = false := by
  rw [getFileSaveName, if_neg (by omega), hbad]
  exact ⟨rfl, rfl⟩

/-- Witness for C8 at the spec's example input "not-a-date". -/
theorem C8_format_error_witness :
    dateLength ≤ ("not-a-date").length ∧ parseYMD (("not-a-date").take dateLength) = none ∧
    getFileSaveName "not-a-date" "Standup" "a.mp4" = GoResult.err "failed to parse date" :=
  ⟨by decide, by decide,
   (C8_format_error "not-a-date" "Standup" "a.mp4" (by decide) (by decide)).1⟩

/-- C9: key derivation is only total for start_times of at least ten
characters — on any shorter string the ten-byte slice is out of range and the
function panics, returning neither a key nor a FormatError. -/
theorem C9_short_start_time_crashes (st topic fn : String) (h : st.length < dateLength) :
    getFileSaveName st topic fn = GoResult.crash ∧
    (getFileSaveName st topic fn).isFormatError = false ∧
    (getFileSaveName st topic fn).isOk = false := by
  rw [getFileSaveName, if_pos h]
  exact ⟨rfl, rfl, rfl⟩

/-- Witness for C9 at the one-character start_time "x". -/
theorem C9_short_start_time_crashes_witness :
    ("x").length < dateLength ∧ getFileSaveName "x" "" "a.mp4" = GoResult.crash :=
  ⟨by decide, (C9_short_start_time_crashes "x" "" "a.mp4" (by decide)).1⟩

/-- C10 (code bug): main.go's FileName format string inserts a literal "s"
after recording_type, so at the README's example file it yields
"...gallery_viewss.mp4" where function.go (and the README) give
"...gallery_views.mp4"; the flat variant's filename is always one character
longer than the canonical one, so the two never coincide. -/
theorem C10_filename_variants (f : recordingFile) :
    MainGo.FileName exFile = "2020-09-14T15:02:39Z-shared_screen_with_gallery_viewss.mp4" ∧
    recordingFile.FileName exFile = "2020-09-14T15:02:39Z-shared_screen_with_gallery_views.mp4" ∧
    (MainGo.FileName exFile == recordingFile.FileName exFile) = false ∧
    (MainGo.FileName f).length = (recordingFile.FileName f).length + 1 := by
  refine ⟨by decide, by decide, by decide, ?_⟩
  have e1 : ("-" : String).length = 1 := rfl
  have e2 : ("s." : String).length = 2 := rfl
  have e3 : ("." : String).length = 1 := rfl
  simp [MainGo.FileName, recordingFile.FileName, String.length_append, e1, e2, e3]
  omega
